import Mathlib

/-!
Shallow embedding of the SOS chat relay (Cloudflare worker, `src/index.ts`).

Timestamps are `nowSeconds() = Date.now() / 1000`, i.e. fractional seconds,
modelled as rationals.  Durable-object storage for a room is an
`Option RoomData` (the value stored under the `'room'` key); the rate-limiter
record for one address is an `Option RateEntry`.  Each handler is a pure
function from (stored value, current time, request inputs, fresh random ids)
to (response, new stored value); the random ids produced by `randomId` are
passed in as parameters.  JavaScript objects used as string maps
(`room.members`) are modelled as insertion-ordered association lists, with
JS truthiness of a looked-up nickname made explicit.
-/

namespace SOSChat

/-- `ROOM_TTL_SECONDS` from the source. -/
def ROOM_TTL_SECONDS : ℚ := 3600

/-- `MAX_MESSAGES` from the source. -/
def MAX_MESSAGES : Nat := 500

/-- `RATE_LIMIT_COOLDOWN_SECONDS` from the source. -/
def RATE_LIMIT_COOLDOWN_SECONDS : ℚ := 1800

/-- `RATE_LIMIT_DELAYS_SECONDS` from the source. -/
def RATE_LIMIT_DELAYS_SECONDS : List ℚ := [0, 10, 30, 60, 180, 300]

/-- One chat message, as stored in `room.messages`. -/
structure Message where
  id : String
  sender : String
  content : String
  timestamp : ℚ
  deriving Repr, DecidableEq

/-- The `RoomData` record stored under the `'room'` key of a room entity.
`members` is a JS object keyed by member id; we keep insertion order. -/
structure RoomData where
  room_hash : String
  mode : String
  created_at : ℚ
  expires_at : ℚ
  members : List (String × String)
  messages : List Message
  deriving Repr, DecidableEq

/-- The `RateEntry` record of the rate limiter. -/
structure RateEntry where
  count : Nat
  last_attempt : ℚ
  deriving Repr, DecidableEq

/-- Error responses produced by the room entity, with their HTTP status. -/
inductive RoomError
  | room_not_found
  | room_exists
  | invalid_room_hash
  | missing_content
  deriving Repr, DecidableEq

/-- HTTP status attached to each room-entity error in the source. -/
def RoomError.status : RoomError → Nat
  | .room_not_found => 404
  | .room_exists => 409
  | .invalid_room_hash => 400
  | .missing_content => 400

/-- Lookup in a JS-object-as-map: `obj[k]`, `none` when the key is absent. -/
def membersGet (ms : List (String × String)) (k : String) : Option String :=
  (ms.find? (fun p => p.1 == k)).map (fun p => p.2)

/-- Assignment `obj[k] = v`: updates in place if the key exists (JS objects
keep the original insertion position), otherwise appends. -/
def membersSet (ms : List (String × String)) (k v : String) :
    List (String × String) :=
  if ms.any (fun p => p.1 == k) then
    ms.map (fun p => if p.1 == k then (k, v) else p)
  else
    ms ++ [(k, v)]

/-- `delete obj[k]`. -/
def membersDelete (ms : List (String × String)) (k : String) :
    List (String × String) :=
  ms.filter (fun p => p.1 != k)

/-- `Object.values(obj)`, in insertion order. -/
def membersValues (ms : List (String × String)) : List String :=
  ms.map (fun p => p.2)

/-- The JS test `memberId && room.members[memberId]`: the member id must be
truthy (non-empty) and map to a truthy (non-empty) nickname. -/
def memberTruthy (ms : List (String × String)) (mid : String) : Bool :=
  mid != "" &&
    (match membersGet ms mid with
     | some nick => nick != ""
     | none => false)

/-- `data.sender || 'anon'` for a string-or-absent sender field. -/
def fallbackSender (sender : Option String) : String :=
  match sender with
  | some s => if s == "" then "anon" else s
  | none => "anon"

/-- Sender resolution in `handleSend`: the stored nickname when the member id
is truthy and maps to a truthy nickname, else the caller-supplied sender,
else `"anon"`. -/
def effectiveSender (ms : List (String × String))
    (member_id sender : Option String) : String :=
  match member_id with
  | some mid =>
      if memberTruthy ms mid then (membersGet ms mid).getD (fallbackSender sender)
      else fallbackSender sender
  | none => fallbackSender sender

/-- `getRoom`: reads the stored record; a record with `now > expires_at` is
deleted and reported absent (lazy expiry).  Returns (result, new storage). -/
def getRoom (stored : Option RoomData) (now : ℚ) :
    Option RoomData × Option RoomData :=
  match stored with
  | none => (none, none)
  | some room =>
      if room.expires_at < now then (none, none) else (some room, some room)

/-- Response body of a successful `create`. -/
structure CreateResult where
  room_hash : String
  mode : String
  created_at : ℚ
  expires_at : ℚ
  member_id : String
  members : List String
  deriving Repr, DecidableEq

/-- Response body of a successful `join`. -/
structure JoinResult where
  room_hash : String
  mode : String
  created_at : ℚ
  expires_at : ℚ
  member_id : String
  members : List String
  message_count : Nat
  last_message_ts : ℚ
  deriving Repr, DecidableEq

/-- Response body of a successful `send`. -/
structure SendResult where
  id : String
  timestamp : ℚ
  deriving Repr, DecidableEq

/-- Response body of a successful `poll`. -/
structure PollResult where
  messages : List Message
  members : List String
  expires_at : ℚ
  message_count : Nat
  deriving Repr, DecidableEq

/-- Response body of a successful `leave` (always `{status: "left"}`). -/
structure LeaveResult where
  status : String
  deriving Repr, DecidableEq

/-- Response body of a successful `info`. -/
structure InfoResult where
  room_hash : String
  mode : String
  created_at : ℚ
  expires_at : ℚ
  members : List String
  message_count : Nat
  time_remaining : ℤ
  deriving Repr, DecidableEq

/-- `handleCreate`: conflict if a live record exists; `invalid_room_hash` if
the body is unparsable or its `room_hash` differs from the path hash;
otherwise allocates a fresh room with TTL 3600 and a `"creator"` member. -/
def handleCreate (stored : Option RoomData) (now : ℚ) (roomHash : String)
    (body_room_hash : Option String) (freshMemberId : String) :
    Except RoomError CreateResult × Option RoomData :=
  match getRoom stored now with
  | (some _, st) => (.error .room_exists, st)
  | (none, st) =>
    match body_room_hash with
    | none => (.error .invalid_room_hash, st)
    | some h =>
      if h ≠ roomHash then (.error .invalid_room_hash, st)
      else
        let room : RoomData :=
          { room_hash := roomHash
            mode := "fixed"
            created_at := now
            expires_at := now + ROOM_TTL_SECONDS
            members := [(freshMemberId, "creator")]
            messages := [] }
        (.ok { room_hash := room.room_hash
               mode := room.mode
               created_at := room.created_at
               expires_at := room.expires_at
               member_id := freshMemberId
               members := membersValues room.members },
         some room)

/-- `(data?.nickname || 'anon').toString().slice(0, 20)` (string nicknames;
`slice` truncation modelled as `String.take`). -/
def normalizeNickname (nickname : Option String) : String :=
  (match nickname with
   | some s => if s == "" then "anon" else s
   | none => "anon").take 20

/-- `handleJoin`: `room_not_found` when no live record or the stored hash
mismatches; otherwise inserts a fresh member and persists. -/
def handleJoin (stored : Option RoomData) (now : ℚ) (roomHash : String)
    (nickname : Option String) (freshMemberId : String) :
    Except RoomError JoinResult × Option RoomData :=
  match getRoom stored now with
  | (none, st) => (.error .room_not_found, st)
  | (some room, st) =>
    if room.room_hash ≠ roomHash then (.error .room_not_found, st)
    else
      let nick := normalizeNickname nickname
      let room2 := { room with members := membersSet room.members freshMemberId nick }
      (.ok { room_hash := room2.room_hash
             mode := room2.mode
             created_at := room2.created_at
             expires_at := room2.expires_at
             member_id := freshMemberId
             members := membersValues room2.members
             message_count := room2.messages.length
             last_message_ts :=
               match room2.messages.getLast? with
               | some m => m.timestamp
               | none => 0 },
       some room2)

/-- `room.messages.push(msg)` followed by the `slice(-MAX_MESSAGES)` trim. -/
def pushTrim (msgs : List Message) (m : Message) : List Message :=
  if MAX_MESSAGES < (msgs ++ [m]).length then
    (msgs ++ [m]).drop ((msgs ++ [m]).length - MAX_MESSAGES)
  else msgs ++ [m]

/-- `handleSend`: `room_not_found` when no live record; `missing_content` when
the body is unparsable or `content` is falsy (absent or empty); otherwise
appends a message with the resolved sender and trims to the bound. -/
def handleSend (stored : Option RoomData) (now : ℚ) (roomHash : String)
    (member_id sender content : Option String) (freshMsgId : String) :
    Except RoomError SendResult × Option RoomData :=
  match getRoom stored now with
  | (none, st) => (.error .room_not_found, st)
  | (some room, st) =>
    if room.room_hash ≠ roomHash then (.error .room_not_found, st)
    else
      match content with
      | none => (.error .missing_content, st)
      | some c =>
        if c == "" then (.error .missing_content, st)
        else
          let msg : Message :=
            { id := freshMsgId
              sender := effectiveSender room.members member_id sender
              content := c
              timestamp := now }
          let room2 := { room with messages := pushTrim room.messages msg }
          (.ok { id := msg.id, timestamp := msg.timestamp }, some room2)

/-- `handlePoll`: `room_not_found` when no live record; otherwise the messages
with `timestamp > since` in arrival order, the member list, `expires_at`, and
the total retained message count. -/
def handlePoll (stored : Option RoomData) (now : ℚ) (roomHash : String)
    (since : ℚ) : Except RoomError PollResult × Option RoomData :=
  match getRoom stored now with
  | (none, st) => (.error .room_not_found, st)
  | (some room, st) =>
    if room.room_hash ≠ roomHash then (.error .room_not_found, st)
    else
      (.ok { messages := room.messages.filter (fun msg => since < msg.timestamp)
             members := membersValues room.members
             expires_at := room.expires_at
             message_count := room.messages.length },
       st)

/-- `handleLeave`: `room_not_found` when no live record; removes the member
and persists only when `memberId && room.members[memberId]` is truthy;
always answers `{status: "left"}` on a live room. -/
def handleLeave (stored : Option RoomData) (now : ℚ) (roomHash : String)
    (member_id : Option String) :
    Except RoomError LeaveResult × Option RoomData :=
  match getRoom stored now with
  | (none, st) => (.error .room_not_found, st)
  | (some room, st) =>
    if room.room_hash ≠ roomHash then (.error .room_not_found, st)
    else
      match member_id with
      | some mid =>
        if memberTruthy room.members mid then
          (.ok { status := "left" },
           some { room with members := membersDelete room.members mid })
        else (.ok { status := "left" }, st)
      | none => (.ok { status := "left" }, st)

/-- `handleInfo`: `room_not_found` when no live record; otherwise the room
summary with `time_remaining = max(0, floor(expires_at - now))`. -/
def handleInfo (stored : Option RoomData) (now : ℚ) (roomHash : String) :
    Except RoomError InfoResult × Option RoomData :=
  match getRoom stored now with
  | (none, st) => (.error .room_not_found, st)
  | (some room, st) =>
    if room.room_hash ≠ roomHash then (.error .room_not_found, st)
    else
      (.ok { room_hash := room.room_hash
             mode := room.mode
             created_at := room.created_at
             expires_at := room.expires_at
             members := membersValues room.members
             message_count := room.messages.length
             time_remaining := max 0 ⌊room.expires_at - now⌋ },
       st)

/-- Result of `SOSRateLimiter.check` as returned to the router. -/
structure CheckResult where
  allowed : Bool
  retry_after : ℤ
  deriving Repr, DecidableEq

/-- `SOSRateLimiter.check` on the entry stored for one address: fresh or
cooldown-elapsed entries reset to count 1; inside the window the escalation
table gates acceptance; a denied attempt leaves the record unchanged. -/
def check (entry : Option RateEntry) (now : ℚ) :
    CheckResult × Option RateEntry :=
  match entry with
  | none =>
      ({ allowed := true, retry_after := 0 },
       some { count := 1, last_attempt := now })
  | some e =>
    if RATE_LIMIT_COOLDOWN_SECONDS < now - e.last_attempt then
      ({ allowed := true, retry_after := 0 },
       some { count := 1, last_attempt := now })
    else
      let delayIndex := min e.count (RATE_LIMIT_DELAYS_SECONDS.length - 1)
      let requiredDelay := RATE_LIMIT_DELAYS_SECONDS.getD delayIndex 0
      let elapsed := now - e.last_attempt
      if requiredDelay ≤ elapsed then
        ({ allowed := true, retry_after := 0 },
         some { count := e.count + 1, last_attempt := now })
      else
        ({ allowed := false, retry_after := ⌈requiredDelay - elapsed⌉ }, some e)

/-- `SOSRateLimiter.reset`: unconditionally deletes the address's record. -/
def reset (_entry : Option RateEntry) : Option RateEntry := none

/-- A message as appended by `handleSend` from the given request inputs. -/
def sentMessage (room : RoomData) (mid snd : Option String) (c fid : String)
    (now : ℚ) : Message :=
  { id := fid
    sender := effectiveSender room.members mid snd
    content := c
    timestamp := now }

/-- The message appended by `handleSend` for one item of a send sequence
(`member_id` and `sender` omitted, so the sender resolves to `"anon"`):
the item is (timestamp, fresh message id, content). -/
def msgOf (it : ℚ × String × String) : Message :=
  { id := it.2.1, sender := "anon", content := it.2.2, timestamp := it.1 }

/-- Repeatedly invoke `handleSend` on the stored room, one call per item
(timestamp, fresh id, content), threading the stored state through. -/
def sendSeq (stored : Option RoomData) (roomHash : String)
    (items : List (ℚ × String × String)) : Option RoomData :=
  items.foldl
    (fun st it => (handleSend st it.1 roomHash none none (some it.2.2) it.2.1).2)
    stored

/-- A concrete live room used to instantiate the theorems. -/
def sampleRoom : RoomData :=
  { room_hash := "abcdefgh12345678"
    mode := "fixed"
    created_at := 0
    expires_at := 3600
    members := [("aaaaaaaa", "creator")]
    messages := [] }

/-- A concrete sequence of 501 send requests at time 5. -/
def sampleItems : List (ℚ × String × String) :=
  List.replicate (MAX_MESSAGES + 1) ((5 : ℚ), "msgidmsgidms", "hello")

/-- Entities the worker router may consult while handling one request. -/
inductive EntityLookup
  | rateLimiter
  | roomEntity
  deriving Repr, DecidableEq

/-- Outcome of the worker router for one request: `response` is the (status,
error-code) answer the router produces itself, or `none` when the request is
forwarded to the room entity; `lookups` records, in order, which entities
were consulted. -/
structure RouterOutcome where
  response : Option (Nat × String)
  lookups : List EntityLookup
  deriving Repr, DecidableEq

/-- The `POST /room` (create) route of the worker `fetch`: it always consults
the rate limiter first (`checkRateLimit`); a denied check answers
`rate_limited` (429); only then is the body's `room_hash` validated
(string of exactly 16 characters), rejecting with `invalid_room_hash` (400);
a valid hash forwards to the room entity.  `rate` is the rate-limiter
entity's answer, supplied as an input. -/
def routeCreateRoom (rate : CheckResult) (body_room_hash : Option String) :
    RouterOutcome :=
  if rate.allowed = false then
    { response := some (429, "rate_limited"), lookups := [.rateLimiter] }
  else
    match body_room_hash with
    | none =>
        { response := some (400, "invalid_room_hash"), lookups := [.rateLimiter] }
    | some h =>
        if h.length ≠ 16 then
          { response := some (400, "invalid_room_hash"), lookups := [.rateLimiter] }
        else
          { response := none, lookups := [.rateLimiter, .roomEntity] }

/-- The `/room/{hash}/...` routes of the worker `fetch`: a path hash that is
empty or not exactly 16 characters is rejected with `invalid_room_hash`
(400) before any entity is looked up; otherwise the request is forwarded to
the room entity. -/
def routeRoomSubpath (roomHash : String) : RouterOutcome :=
  if roomHash.length ≠ 16 then
    { response := some (400, "invalid_room_hash"), lookups := [] }
  else
    { response := none, lookups := [.roomEntity] }

/-- A live (unexpired) record is returned unchanged by `getRoom`. -/
theorem getRoom_live (room : RoomData) (now : ℚ) (hlive : ¬ room.expires_at < now) :
    getRoom (some room) now = (some room, some room) := by
  simp [getRoom, hlive]

/-- An expired record is deleted and reported absent by `getRoom`. -/
theorem getRoom_expired (room : RoomData) (now : ℚ) (hexp : room.expires_at < now) :
    getRoom (some room) now = (none, none) := by
  simp [getRoom, hexp]

/-- After deleting a key, looking it up yields nothing. -/
theorem membersGet_delete (ms : List (String × String)) (k : String) :
    membersGet (membersDelete ms k) k = none := by
  simp [membersGet, membersDelete, List.find?_eq_none, List.mem_filter]

/-- A deleted member id is no longer truthy-known. -/
theorem memberTruthy_delete (ms : List (String × String)) (k : String) :
    memberTruthy (membersDelete ms k) k = false := by
  simp [memberTruthy, membersGet_delete]

/-- Appending through `pushTrim` keeps the message sequence within the bound. -/
theorem pushTrim_length_le (l : List Message) (m : Message)
    (h : l.length ≤ MAX_MESSAGES) : (pushTrim l m).length ≤ MAX_MESSAGES := by
  unfold pushTrim
  simp only [List.length_append, List.length_singleton]
  split
  · simp only [List.length_drop, List.length_append, List.length_singleton]
    omega
  · simp only [List.length_append, List.length_singleton]
    omega

/-- Below the bound, `pushTrim` is a plain append. -/
theorem pushTrim_of_lt (l : List Message) (m : Message)
    (h : l.length < MAX_MESSAGES) : pushTrim l m = l ++ [m] := by
  unfold pushTrim
  rw [if_neg]
  simp
  omega

/-- At the bound, `pushTrim` drops exactly the oldest message. -/
theorem pushTrim_of_full (l : List Message) (m : Message)
    (h : l.length = MAX_MESSAGES) : pushTrim l m = l.drop 1 ++ [m] := by
  cases l with
  | nil => simp [MAX_MESSAGES] at h
  | cons a t =>
    unfold pushTrim
    rw [if_pos]
    · simp at h ⊢
      rw [h]
      simp [MAX_MESSAGES]
    · simp at h ⊢
      omega

/-- Folding `pushTrim` over few enough messages appends them all. -/
theorem foldl_pushTrim_below (ms : List Message) :
    ∀ l : List Message, l.length + ms.length ≤ MAX_MESSAGES →
      List.foldl pushTrim l ms = l ++ ms := by
  induction ms with
  | nil => intro l _; simp
  | cons m rest ih =>
    intro l h
    have h1 : l.length < MAX_MESSAGES := by simp at h; omega
    rw [List.foldl_cons, pushTrim_of_lt l m h1, ih (l ++ [m]) (by simp at h ⊢; omega)]
    simp

/-- Folding `pushTrim` over one more message than the bound keeps all but
the first. -/
theorem foldl_pushTrim_overflow (ms : List Message)
    (h : ms.length = MAX_MESSAGES + 1) :
    List.foldl pushTrim [] ms = ms.drop 1 := by
  have hne : ms ≠ [] := by intro he; rw [he] at h; simp at h
  have hsplit : ms = ms.dropLast ++ [ms.getLast hne] := (List.dropLast_append_getLast hne).symm
  have hlen : ms.dropLast.length = MAX_MESSAGES := by
    have := List.length_dropLast ms
    omega
  calc List.foldl pushTrim [] ms
      = List.foldl pushTrim [] (ms.dropLast ++ [ms.getLast hne]) := by rw [← hsplit]
    _ = pushTrim (List.foldl pushTrim [] ms.dropLast) (ms.getLast hne) := by
        rw [List.foldl_append]; simp
    _ = pushTrim ms.dropLast (ms.getLast hne) := by
        rw [foldl_pushTrim_below ms.dropLast [] (by simp [hlen])]
        simp
    _ = ms.dropLast.drop 1 ++ [ms.getLast hne] := pushTrim_of_full _ _ hlen
    _ = (ms.dropLast ++ [ms.getLast hne]).drop 1 := by
        rw [List.drop_append_of_le_length]
        simp [hlen, MAX_MESSAGES]
    _ = ms.drop 1 := by rw [← hsplit]

/-- On a live, matching room, a whole send sequence just folds `pushTrim`
over the produced messages; no other field changes. -/
theorem sendSeq_messages (roomHash : String) :
    ∀ (items : List (ℚ × String × String)) (room : RoomData),
      room.room_hash = roomHash →
      (∀ it ∈ items, ¬ room.expires_at < it.1 ∧ it.2.2 ≠ "") →
      sendSeq (some room) roomHash items =
        some { room with
               messages := List.foldl pushTrim room.messages (items.map msgOf) } := by
  intro items
  induction items with
  | nil => intro room _ _; simp [sendSeq]
  | cons it rest ih =>
    intro room hhash hall
    have hhead := hall it (List.mem_cons_self it rest)
    have hstep : (handleSend (some room) it.1 roomHash none none (some it.2.2) it.2.1).2 =
        some { room with messages := pushTrim room.messages (msgOf it) } := by
      simp [handleSend, getRoom, hhead.1, hhash, hhead.2, msgOf, effectiveSender,
        fallbackSender]
    have hrest : ∀ it2 ∈ rest,
        ¬ ({ room with messages := pushTrim room.messages (msgOf it) } : RoomData).expires_at < it2.1 ∧
          it2.2.2 ≠ "" := by
      intro it2 hmem
      exact hall it2 (List.mem_cons_of_mem it hmem)
    have := ih { room with messages := pushTrim room.messages (msgOf it) } hhash hrest
    simp only [sendSeq, List.foldl_cons] at this ⊢
    rw [hstep]
    rw [this]
    simp

/-- Claim C1: every mutating room operation keeps `messages.length` within
`MAX_MESSAGES`; a send at the bound retains only the 500 most recent
messages, dropping the oldest and keeping relative order; and a sequence of
501 sends into a fresh room leaves exactly the 500 most recent messages in
original relative order, the first of the 501 absent. -/
theorem message_bound (room : RoomData) (now : ℚ) (roomHash : String)
    (nickname mid snd c : Option String) (fid fid2 fid3 : String)
    (items : List (ℚ × String × String))
    (hlen : room.messages.length ≤ MAX_MESSAGES) :
    (∀ r2, (handleCreate none now roomHash (some roomHash) fid3).2 = some r2 →
      r2.messages.length ≤ MAX_MESSAGES) ∧
    (∀ r2, (handleJoin (some room) now roomHash nickname fid).2 = some r2 →
      r2.messages.length ≤ MAX_MESSAGES) ∧
    (∀ r2, (handleSend (some room) now roomHash mid snd c fid2).2 = some r2 →
      r2.messages.length ≤ MAX_MESSAGES) ∧
    (∀ r2, (handleLeave (some room) now roomHash mid).2 = some r2 →
      r2.messages.length ≤ MAX_MESSAGES) ∧
    (∀ cc, cc ≠ "" → room.messages.length = MAX_MESSAGES →
      ¬ room.expires_at < now → room.room_hash = roomHash →
      (handleSend (some room) now roomHash mid snd (some cc) fid2).2 =
        some { room with messages :=
          room.messages.drop 1 ++ [sentMessage room mid snd cc fid2 now] }) ∧
    (room.messages = [] → room.room_hash = roomHash →
      items.length = MAX_MESSAGES + 1 →
      (∀ it ∈ items, ¬ room.expires_at < it.1 ∧ it.2.2 ≠ "") →
      sendSeq (some room) roomHash items =
        some { room with messages := (items.map msgOf).drop 1 }) := by
  refine ⟨?_, ?_, ?_, ?_, ?_, ?_⟩
  · intro r2 h2
    simp [handleCreate, getRoom] at h2
    subst h2
    simp [MAX_MESSAGES]
  · intro r2 h2
    by_cases hexp : room.expires_at < now
    · simp [handleJoin, getRoom, hexp] at h2
    · by_cases hh : room.room_hash = roomHash
      · simp [handleJoin, getRoom, hexp, hh] at h2
        subst h2
        simpa using hlen
      · simp [handleJoin, getRoom, hexp, hh] at h2
        subst h2
        exact hlen
  · intro r2 h2
    by_cases hexp : room.expires_at < now
    · simp [handleSend, getRoom, hexp] at h2
    · by_cases hh : room.room_hash = roomHash
      · rcases c with _ | cc
        · simp [handleSend, getRoom, hexp, hh] at h2
          subst h2
          exact hlen
        · by_cases hcc : cc = ""
          · simp [handleSend, getRoom, hexp, hh, hcc] at h2
            subst h2
            exact hlen
          · simp [handleSend, getRoom, hexp, hh, hcc] at h2
            subst h2
            simpa using pushTrim_length_le room.messages _ hlen
      · simp [handleSend, getRoom, hexp, hh] at h2
        subst h2
        exact hlen
  · intro r2 h2
    by_cases hexp : room.expires_at < now
    · simp [handleLeave, getRoom, hexp] at h2
    · by_cases hh : room.room_hash = roomHash
      · rcases mid with _ | m
        · simp [handleLeave, getRoom, hexp, hh] at h2
          subst h2
          exact hlen
        · by_cases hm : memberTruthy room.members m = true
          · simp [handleLeave, getRoom, hexp, hh, hm] at h2
            subst h2
            simpa using hlen
          · simp [handleLeave, getRoom, hexp, hh, hm] at h2
            subst h2
            exact hlen
      · simp [handleLeave, getRoom, hexp, hh] at h2
        subst h2
        exact hlen
  · intro cc hcc hfull hlive hh
    have hstep : (handleSend (some room) now roomHash mid snd (some cc) fid2).2 =
        some { room with
               messages := pushTrim room.messages (sentMessage room mid snd cc fid2 now) } := by
      simp [handleSend, getRoom, hlive, hh, hcc, sentMessage]
    rw [hstep, pushTrim_of_full room.messages _ hfull]
  · intro hempty hh hlen501 hall
    rw [sendSeq_messages roomHash items room hh hall, hempty]
    rw [foldl_pushTrim_overflow (items.map msgOf) (by simpa using hlen501)]

/-- Witness for `message_bound` at `sampleRoom` and 501 concrete sends. -/
theorem message_bound_witness :
    (sampleRoom.messages.length ≤ MAX_MESSAGES) ∧
    ((∀ r2, (handleCreate none 5 "abcdefgh12345678" (some "abcdefgh12345678") "dddddddd").2 = some r2 →
      r2.messages.length ≤ MAX_MESSAGES) ∧
    (∀ r2, (handleJoin (some sampleRoom) 5 "abcdefgh12345678" none "bbbbbbbb").2 = some r2 →
      r2.messages.length ≤ MAX_MESSAGES) ∧
    (∀ r2, (handleSend (some sampleRoom) 5 "abcdefgh12345678" none none none "cccccccccccc").2 = some r2 →
      r2.messages.length ≤ MAX_MESSAGES) ∧
    (∀ r2, (handleLeave (some sampleRoom) 5 "abcdefgh12345678" none).2 = some r2 →
      r2.messages.length ≤ MAX_MESSAGES) ∧
    (∀ cc, cc ≠ "" → sampleRoom.messages.length = MAX_MESSAGES →
      ¬ sampleRoom.expires_at < 5 → sampleRoom.room_hash = "abcdefgh12345678" →
      (handleSend (some sampleRoom) 5 "abcdefgh12345678" none none (some cc) "cccccccccccc").2 =
        some { sampleRoom with messages :=
          sampleRoom.messages.drop 1 ++ [sentMessage sampleRoom none none cc "cccccccccccc" 5] }) ∧
    (sampleRoom.messages = [] → sampleRoom.room_hash = "abcdefgh12345678" →
      sampleItems.length = MAX_MESSAGES + 1 →
      (∀ it ∈ sampleItems, ¬ sampleRoom.expires_at < it.1 ∧ it.2.2 ≠ "") →
      sendSeq (some sampleRoom) "abcdefgh12345678" sampleItems =
        some { sampleRoom with messages := (sampleItems.map msgOf).drop 1 })) :=
  ⟨by decide,
   message_bound sampleRoom 5 "abcdefgh12345678" none none none none
     "bbbbbbbb" "cccccccccccc" "dddddddd" sampleItems (by decide)⟩

/-- Claim C2: every operation on a room whose `expires_at` is strictly in
the past answers `room_not_found` and the first such access deletes the
stored record; afterwards reads stay absent and no operation other than
`create` produces a live record from an absent one. -/
theorem ttl_expiry (room : RoomData) (now now2 : ℚ) (roomHash : String)
    (nickname mid snd c : Option String) (fid fid2 fid3 : String) (since : ℚ)
    (hexp : room.expires_at < now) :
    handleJoin (some room) now roomHash nickname fid = (.error .room_not_found, none) ∧
    handleSend (some room) now roomHash mid snd c fid2 = (.error .room_not_found, none) ∧
    handlePoll (some room) now roomHash since = (.error .room_not_found, none) ∧
    handleLeave (some room) now roomHash mid = (.error .room_not_found, none) ∧
    handleInfo (some room) now roomHash = (.error .room_not_found, none) ∧
    getRoom none now2 = (none, none) ∧
    handleJoin none now2 roomHash nickname fid = (.error .room_not_found, none) ∧
    handleSend none now2 roomHash mid snd c fid2 = (.error .room_not_found, none) ∧
    handlePoll none now2 roomHash since = (.error .room_not_found, none) ∧
    handleLeave none now2 roomHash mid = (.error .room_not_found, none) ∧
    handleInfo none now2 roomHash = (.error .room_not_found, none) ∧
    (handleCreate none now2 roomHash (some roomHash) fid3).2 =
      some { room_hash := roomHash
             mode := "fixed"
             created_at := now2
             expires_at := now2 + ROOM_TTL_SECONDS
             members := [(fid3, "creator")]
             messages := [] } := by
  refine ⟨?_, ?_, ?_, ?_, ?_, rfl, rfl, rfl, rfl, rfl, rfl, ?_⟩
  · simp [handleJoin, getRoom_expired room now hexp]
  · simp [handleSend, getRoom_expired room now hexp]
  · simp [handlePoll, getRoom_expired room now hexp]
  · simp [handleLeave, getRoom_expired room now hexp]
  · simp [handleInfo, getRoom_expired room now hexp]
  · simp [handleCreate, getRoom]

/-- Witness for `ttl_expiry` at `sampleRoom` just past its deadline. -/
theorem ttl_expiry_witness :
    (sampleRoom.expires_at < 3601) ∧
    (handleJoin (some sampleRoom) 3601 "abcdefgh12345678" none "bbbbbbbb" =
      (.error .room_not_found, none) ∧
    handleSend (some sampleRoom) 3601 "abcdefgh12345678" none none none "cccccccccccc" =
      (.error .room_not_found, none) ∧
    handlePoll (some sampleRoom) 3601 "abcdefgh12345678" 0 =
      (.error .room_not_found, none) ∧
    handleLeave (some sampleRoom) 3601 "abcdefgh12345678" none =
      (.error .room_not_found, none) ∧
    handleInfo (some sampleRoom) 3601 "abcdefgh12345678" =
      (.error .room_not_found, none) ∧
    getRoom none 3700 = (none, none) ∧
    handleJoin none 3700 "abcdefgh12345678" none "bbbbbbbb" =
      (.error .room_not_found, none) ∧
    handleSend none 3700 "abcdefgh12345678" none none none "cccccccccccc" =
      (.error .room_not_found, none) ∧
    handlePoll none 3700 "abcdefgh12345678" 0 = (.error .room_not_found, none) ∧
    handleLeave none 3700 "abcdefgh12345678" none = (.error .room_not_found, none) ∧
    handleInfo none 3700 "abcdefgh12345678" = (.error .room_not_found, none) ∧
    (handleCreate none 3700 "abcdefgh12345678" (some "abcdefgh12345678") "dddddddd").2 =
      some { room_hash := "abcdefgh12345678"
             mode := "fixed"
             created_at := 3700
             expires_at := 3700 + ROOM_TTL_SECONDS
             members := [("dddddddd", "creator")]
             messages := [] }) :=
  ⟨by norm_num [sampleRoom],
   ttl_expiry sampleRoom 3601 3700 "abcdefgh12345678" none none none none
     "bbbbbbbb" "cccccccccccc" "dddddddd" 0 (by norm_num [sampleRoom])⟩

/-- Claim C3: on a live room, `poll` returns exactly the retained messages
with timestamp strictly greater than `since`, in arrival order, with the
member list, `expires_at` and total retained count; no returned message has
timestamp at most `since`, and `since = 0` returns all retained messages
(whose timestamps are positive epoch times). -/
theorem poll_exclusive (room : RoomData) (now since : ℚ) (roomHash : String)
    (hlive : ¬ room.expires_at < now) (hhash : room.room_hash = roomHash) :
    handlePoll (some room) now roomHash since =
      (.ok { messages := room.messages.filter (fun msg => since < msg.timestamp)
             members := membersValues room.members
             expires_at := room.expires_at
             message_count := room.messages.length },
       some room) ∧
    (∀ m ∈ (room.messages.filter (fun msg => since < msg.timestamp)), since < m.timestamp) ∧
    (room.messages.filter (fun msg => since < msg.timestamp)).Sublist room.messages ∧
    ((∀ m ∈ room.messages, 0 < m.timestamp) →
      handlePoll (some room) now roomHash 0 =
        (.ok { messages := room.messages
               members := membersValues room.members
               expires_at := room.expires_at
               message_count := room.messages.length },
         some room)) := by
  refine ⟨?_, ?_, List.filter_sublist _, ?_⟩
  · simp [handlePoll, getRoom_live room now hlive, hhash]
  · intro m hm
    have := List.of_mem_filter hm
    simpa using this
  · intro hpos
    have hfil : room.messages.filter (fun msg => (0 : ℚ) < msg.timestamp) = room.messages := by
      apply List.filter_eq_self.mpr
      intro a ha
      simpa using hpos a ha
    simp [handlePoll, getRoom_live room now hlive, hhash, hfil]

/-- Witness for `poll_exclusive` at `sampleRoom`, `now = 5`, `since = 2`. -/
theorem poll_exclusive_witness :
    (¬ sampleRoom.expires_at < 5) ∧ (sampleRoom.room_hash = "abcdefgh12345678") ∧
    (handlePoll (some sampleRoom) 5 "abcdefgh12345678" 2 =
      (.ok { messages := sampleRoom.messages.filter (fun msg => 2 < msg.timestamp)
             members := membersValues sampleRoom.members
             expires_at := sampleRoom.expires_at
             message_count := sampleRoom.messages.length },
       some sampleRoom) ∧
    (∀ m ∈ (sampleRoom.messages.filter (fun msg => (2 : ℚ) < msg.timestamp)), (2 : ℚ) < m.timestamp) ∧
    (sampleRoom.messages.filter (fun msg => (2 : ℚ) < msg.timestamp)).Sublist sampleRoom.messages ∧
    ((∀ m ∈ sampleRoom.messages, 0 < m.timestamp) →
      handlePoll (some sampleRoom) 5 "abcdefgh12345678" 0 =
        (.ok { messages := sampleRoom.messages
               members := membersValues sampleRoom.members
               expires_at := sampleRoom.expires_at
               message_count := sampleRoom.messages.length },
         some sampleRoom))) :=
  ⟨by norm_num [sampleRoom], rfl,
   poll_exclusive sampleRoom 5 2 "abcdefgh12345678" (by norm_num [sampleRoom]) rfl⟩

/-- Claim C7: on a live room, `leave` with an absent, unknown, or
already-removed member id succeeds with `{status: "left"}` without touching
the state, and leaving twice with the same member id succeeds both times. -/
theorem leave_idempotent (room : RoomData) (now now2 : ℚ) (roomHash : String)
    (mid mid2 : String)
    (hlive : ¬ room.expires_at < now) (hlive2 : ¬ room.expires_at < now2)
    (hhash : room.room_hash = roomHash)
    (hunknown : memberTruthy room.members mid = false) :
    handleLeave (some room) now roomHash (some mid) =
      (.ok { status := "left" }, some room) ∧
    handleLeave (some room) now roomHash none =
      (.ok { status := "left" }, some room) ∧
    ((handleLeave (some room) now roomHash (some mid2)).1 = .ok { status := "left" } ∧
      (handleLeave ((handleLeave (some room) now roomHash (some mid2)).2) now2 roomHash
        (some mid2)).1 = .ok { status := "left" }) := by
  refine ⟨?_, ?_, ?_, ?_⟩
  · simp [handleLeave, getRoom_live room now hlive, hhash, hunknown]
  · simp [handleLeave, getRoom_live room now hlive, hhash]
  · by_cases hm : memberTruthy room.members mid2 = true
    · simp [handleLeave, getRoom_live room now hlive, hhash, hm]
    · simp [handleLeave, getRoom_live room now hlive, hhash, hm]
  · by_cases hm : memberTruthy room.members mid2 = true
    · have h1 : (handleLeave (some room) now roomHash (some mid2)).2 =
          some { room with members := membersDelete room.members mid2 } := by
        simp [handleLeave, getRoom_live room now hlive, hhash, hm]
      rw [h1]
      simp [handleLeave, getRoom, hlive2, hhash, memberTruthy_delete]
    · have h1 : (handleLeave (some room) now roomHash (some mid2)).2 = some room := by
        simp [handleLeave, getRoom_live room now hlive, hhash, hm]
      rw [h1]
      simp [handleLeave, getRoom, hlive2, hhash, hm]

/-- Witness for `leave_idempotent` at `sampleRoom` with an unknown member id
and double-leave of the known creator id. -/
theorem leave_idempotent_witness :
    (¬ sampleRoom.expires_at < 5) ∧ (¬ sampleRoom.expires_at < 6) ∧
    (sampleRoom.room_hash = "abcdefgh12345678") ∧
    (memberTruthy sampleRoom.members "zzzzzzzz" = false) ∧
    (handleLeave (some sampleRoom) 5 "abcdefgh12345678" (some "zzzzzzzz") =
      (.ok { status := "left" }, some sampleRoom) ∧
    handleLeave (some sampleRoom) 5 "abcdefgh12345678" none =
      (.ok { status := "left" }, some sampleRoom) ∧
    ((handleLeave (some sampleRoom) 5 "abcdefgh12345678" (some "aaaaaaaa")).1 =
        .ok { status := "left" } ∧
      (handleLeave ((handleLeave (some sampleRoom) 5 "abcdefgh12345678" (some "aaaaaaaa")).2)
        6 "abcdefgh12345678" (some "aaaaaaaa")).1 = .ok { status := "left" })) :=
  ⟨by norm_num [sampleRoom], by norm_num [sampleRoom], rfl, by decide,
   leave_idempotent sampleRoom 5 6 "abcdefgh12345678" "zzzzzzzz" "aaaaaaaa"
     (by norm_num [sampleRoom]) (by norm_num [sampleRoom]) rfl (by decide)⟩

/-- Claim C8: on a live room, `send` fails with `missing_content` exactly
when `content` is absent or empty; any other content is appended with the
stored nickname as sender when the member id is present and known, else the
caller-supplied sender, else `"anon"`. -/
theorem send_validation (room : RoomData) (now : ℚ) (roomHash : String)
    (mid snd : Option String) (c fid : String)
    (hlive : ¬ room.expires_at < now) (hhash : room.room_hash = roomHash) :
    handleSend (some room) now roomHash mid snd none fid =
      (.error .missing_content, some room) ∧
    handleSend (some room) now roomHash mid snd (some "") fid =
      (.error .missing_content, some room) ∧
    (c ≠ "" →
      handleSend (some room) now roomHash mid snd (some c) fid =
        (.ok { id := fid, timestamp := now },
         some { room with
                messages := pushTrim room.messages (sentMessage room mid snd c fid now) })) ∧
    (∀ mid0 nick, mid0 ≠ "" → membersGet room.members mid0 = some nick → nick ≠ "" →
      effectiveSender room.members (some mid0) snd = nick) ∧
    (∀ mid0 s, memberTruthy room.members mid0 = false → s ≠ "" →
      effectiveSender room.members (some mid0) (some s) = s) ∧
    (∀ mid0, memberTruthy room.members mid0 = false →
      effectiveSender room.members (some mid0) none = "anon") ∧
    (∀ s, s ≠ "" → effectiveSender room.members none (some s) = s) ∧
    effectiveSender room.members none none = "anon" := by
  refine ⟨?_, ?_, ?_, ?_, ?_, ?_, ?_, rfl⟩
  · simp [handleSend, getRoom_live room now hlive, hhash]
  · simp [handleSend, getRoom_live room now hlive, hhash]
  · intro hc
    simp [handleSend, getRoom_live room now hlive, hhash, hc, sentMessage]
  · intro mid0 nick hm0 hget hnick
    simp [effectiveSender, memberTruthy, hget, hm0, hnick]
  · intro mid0 s hfalse hs
    simp [effectiveSender, hfalse, fallbackSender, hs]
  · intro mid0 hfalse
    simp [effectiveSender, hfalse, fallbackSender]
  · intro s hs
    simp [effectiveSender, fallbackSender, hs]

/-- Witness for `send_validation` at `sampleRoom`, `now = 5`. -/
theorem send_validation_witness :
    (¬ sampleRoom.expires_at < 5) ∧ (sampleRoom.room_hash = "abcdefgh12345678") ∧
    (handleSend (some sampleRoom) 5 "abcdefgh12345678" none none none "cccccccccccc" =
      (.error .missing_content, some sampleRoom) ∧
    handleSend (some sampleRoom) 5 "abcdefgh12345678" none none (some "") "cccccccccccc" =
      (.error .missing_content, some sampleRoom) ∧
    ("hello" ≠ "" →
      handleSend (some sampleRoom) 5 "abcdefgh12345678" none none (some "hello") "cccccccccccc" =
        (.ok { id := "cccccccccccc", timestamp := 5 },
         some { sampleRoom with
                messages := pushTrim sampleRoom.messages
                  (sentMessage sampleRoom none none "hello" "cccccccccccc" 5) })) ∧
    (∀ mid0 nick, mid0 ≠ "" → membersGet sampleRoom.members mid0 = some nick → nick ≠ "" →
      effectiveSender sampleRoom.members (some mid0) none = nick) ∧
    (∀ mid0 s, memberTruthy sampleRoom.members mid0 = false → s ≠ "" →
      effectiveSender sampleRoom.members (some mid0) (some s) = s) ∧
    (∀ mid0, memberTruthy sampleRoom.members mid0 = false →
      effectiveSender sampleRoom.members (some mid0) none = "anon") ∧
    (∀ s, s ≠ "" → effectiveSender sampleRoom.members none (some s) = s) ∧
    effectiveSender sampleRoom.members none none = "anon") :=
  ⟨by norm_num [sampleRoom], rfl,
   send_validation sampleRoom 5 "abcdefgh12345678" none none "hello" "cccccccccccc"
     (by norm_num [sampleRoom]) rfl⟩

/-- Claim C10: on a live room, join, send, leave, poll and info never change
`room_hash`, `mode`, `created_at` or `expires_at`: any record they store has
exactly the original values of those four fields, so the TTL deadline is
never moved by later operations. -/
theorem mutators_preserve_header (room : RoomData) (now : ℚ) (roomHash : String)
    (nickname mid snd c : Option String) (fid fid2 : String) (since : ℚ)
    (hlive : ¬ room.expires_at < now) :
    (∀ r2, (handleJoin (some room) now roomHash nickname fid).2 = some r2 →
      r2.room_hash = room.room_hash ∧ r2.mode = room.mode ∧
      r2.created_at = room.created_at ∧ r2.expires_at = room.expires_at) ∧
    (∀ r2, (handleSend (some room) now roomHash mid snd c fid2).2 = some r2 →
      r2.room_hash = room.room_hash ∧ r2.mode = room.mode ∧
      r2.created_at = room.created_at ∧ r2.expires_at = room.expires_at) ∧
    (∀ r2, (handleLeave (some room) now roomHash mid).2 = some r2 →
      r2.room_hash = room.room_hash ∧ r2.mode = room.mode ∧
      r2.created_at = room.created_at ∧ r2.expires_at = room.expires_at) ∧
    (handlePoll (some room) now roomHash since).2 = some room ∧
    (handleInfo (some room) now roomHash).2 = some room := by
  by_cases hh : room.room_hash = roomHash
  · refine ⟨?_, ?_, ?_, ?_, ?_⟩
    · intro r2 h2
      simp [handleJoin, getRoom_live room now hlive, hh] at h2
      subst h2
      simp [hh.symm]
    · rcases c with _ | cc
      · intro r2 h2
        simp [handleSend, getRoom_live room now hlive, hh] at h2
        subst h2
        simp [hh.symm]
      · by_cases hcc : cc = ""
        · intro r2 h2
          simp [handleSend, getRoom_live room now hlive, hh, hcc] at h2
          subst h2
          simp [hh.symm]
        · intro r2 h2
          simp [handleSend, getRoom_live room now hlive, hh, hcc] at h2
          subst h2
          simp [hh.symm]
    · rcases mid with _ | m
      · intro r2 h2
        simp [handleLeave, getRoom_live room now hlive, hh] at h2
        subst h2
        simp [hh.symm]
      · by_cases hm : memberTruthy room.members m = true
        · intro r2 h2
          simp [handleLeave, getRoom_live room now hlive, hh, hm] at h2
          subst h2
          simp [hh.symm]
        · intro r2 h2
          simp [handleLeave, getRoom_live room now hlive, hh, hm] at h2
          subst h2
          simp [hh.symm]
    · simp [handlePoll, getRoom_live room now hlive, hh]
    · simp [handleInfo, getRoom_live room now hlive, hh]
  · refine ⟨?_, ?_, ?_, ?_, ?_⟩ <;>
      simp [handleJoin, handleSend, handleLeave, handlePoll, handleInfo,
        getRoom_live room now hlive, hh, Ne.symm hh]

/-- Witness for `mutators_preserve_header` at `sampleRoom`, `now = 5`. -/
theorem mutators_preserve_header_witness :
    (¬ sampleRoom.expires_at < 5) ∧
    ((∀ r2, (handleJoin (some sampleRoom) 5 "abcdefgh12345678" none "bbbbbbbb").2 = some r2 →
      r2.room_hash = sampleRoom.room_hash ∧ r2.mode = sampleRoom.mode ∧
      r2.created_at = sampleRoom.created_at ∧ r2.expires_at = sampleRoom.expires_at) ∧
    (∀ r2, (handleSend (some sampleRoom) 5 "abcdefgh12345678" none none (some "hello") "cccccccccccc").2 = some r2 →
      r2.room_hash = sampleRoom.room_hash ∧ r2.mode = sampleRoom.mode ∧
      r2.created_at = sampleRoom.created_at ∧ r2.expires_at = sampleRoom.expires_at) ∧
    (∀ r2, (handleLeave (some sampleRoom) 5 "abcdefgh12345678" none).2 = some r2 →
      r2.room_hash = sampleRoom.room_hash ∧ r2.mode = sampleRoom.mode ∧
      r2.created_at = sampleRoom.created_at ∧ r2.expires_at = sampleRoom.expires_at) ∧
    (handlePoll (some sampleRoom) 5 "abcdefgh12345678" 0).2 = some sampleRoom ∧
    (handleInfo (some sampleRoom) 5 "abcdefgh12345678").2 = some sampleRoom) :=
  ⟨by norm_num [sampleRoom],
   mutators_preserve_header sampleRoom 5 "abcdefgh12345678" none none none
     (some "hello") "bbbbbbbb" "cccccccccccc" 0 (by norm_num [sampleRoom])⟩

/-- Unfolding equation for `check` on a present entry. -/
theorem check_some_eq (e : RateEntry) (now : ℚ) :
    check (some e) now =
      (if RATE_LIMIT_COOLDOWN_SECONDS < now - e.last_attempt then
        ({ allowed := true, retry_after := 0 }, some { count := 1, last_attempt := now })
      else if RATE_LIMIT_DELAYS_SECONDS.getD
          (min e.count (RATE_LIMIT_DELAYS_SECONDS.length - 1)) 0 ≤ now - e.last_attempt then
        ({ allowed := true, retry_after := 0 },
         some { count := e.count + 1, last_attempt := now })
      else
        ({ allowed := false,
           retry_after := ⌈RATE_LIMIT_DELAYS_SECONDS.getD
              (min e.count (RATE_LIMIT_DELAYS_SECONDS.length - 1)) 0 - (now - e.last_attempt)⌉ },
         some e)) := rfl

/-- Claim C4: inside the cooldown window, `check` indexes the escalation
table with `min count 5`; when the elapsed time meets the required delay it
writes `{count + 1, now}` and allows with `retry_after = 0`.  Concretely for a
fresh address: allowed at `t = 0` with count 1; an immediate second check is
denied with `retry_after = 10`; a check at `t = 10` is allowed with count 2;
an immediate next check is denied with `retry_after = 30`. -/
theorem rate_check_escalation (e : RateEntry) (now : ℚ)
    (hwin : now - e.last_attempt ≤ RATE_LIMIT_COOLDOWN_SECONDS)
    (hdel : RATE_LIMIT_DELAYS_SECONDS.getD
        (min e.count (RATE_LIMIT_DELAYS_SECONDS.length - 1)) 0 ≤ now - e.last_attempt) :
    check (some e) now =
      ({ allowed := true, retry_after := 0 },
       some { count := e.count + 1, last_attempt := now }) ∧
    check none 0 = ({ allowed := true, retry_after := 0 }, some { count := 1, last_attempt := 0 }) ∧
    check (some { count := 1, last_attempt := 0 }) 0 =
      ({ allowed := false, retry_after := 10 }, some { count := 1, last_attempt := 0 }) ∧
    check (some { count := 1, last_attempt := 0 }) 10 =
      ({ allowed := true, retry_after := 0 }, some { count := 2, last_attempt := 10 }) ∧
    check (some { count := 2, last_attempt := 10 }) 10 =
      ({ allowed := false, retry_after := 30 }, some { count := 2, last_attempt := 10 }) := by
  refine ⟨?_, rfl, ?_, ?_, ?_⟩
  · rw [check_some_eq, if_neg (not_lt.mpr hwin), if_pos hdel]
  · rw [check_some_eq]
    norm_num [RATE_LIMIT_COOLDOWN_SECONDS, RATE_LIMIT_DELAYS_SECONDS]
  · rw [check_some_eq]
    norm_num [RATE_LIMIT_COOLDOWN_SECONDS, RATE_LIMIT_DELAYS_SECONDS]
  · rw [check_some_eq]
    norm_num [RATE_LIMIT_COOLDOWN_SECONDS, RATE_LIMIT_DELAYS_SECONDS]

/-- Witness for `rate_check_escalation` at `e = {count 1, last 0}`, `now = 10`. -/
theorem rate_check_escalation_witness :
    ((10 : ℚ) - ({ count := 1, last_attempt := 0 } : RateEntry).last_attempt ≤
      RATE_LIMIT_COOLDOWN_SECONDS) ∧
    (RATE_LIMIT_DELAYS_SECONDS.getD
        (min ({ count := 1, last_attempt := 0 } : RateEntry).count
          (RATE_LIMIT_DELAYS_SECONDS.length - 1)) 0 ≤
      (10 : ℚ) - ({ count := 1, last_attempt := 0 } : RateEntry).last_attempt) ∧
    check (some { count := 1, last_attempt := 0 }) 10 =
      ({ allowed := true, retry_after := 0 }, some { count := 2, last_attempt := 10 }) := by
  refine ⟨by norm_num [RATE_LIMIT_COOLDOWN_SECONDS],
          by norm_num [RATE_LIMIT_DELAYS_SECONDS], ?_⟩
  exact (rate_check_escalation { count := 1, last_attempt := 0 } 10
    (by norm_num [RATE_LIMIT_COOLDOWN_SECONDS])
    (by norm_num [RATE_LIMIT_DELAYS_SECONDS])).1

/-- Claim C5: whenever `check` denies, it reports
`retry_after = ceil(required_delay - elapsed)` and leaves the stored record
entirely unmodified. -/
theorem rate_check_denied (e : RateEntry) (now : ℚ)
    (hdenied : (check (some e) now).1.allowed = false) :
    (check (some e) now).1.retry_after =
      ⌈RATE_LIMIT_DELAYS_SECONDS.getD
          (min e.count (RATE_LIMIT_DELAYS_SECONDS.length - 1)) 0 - (now - e.last_attempt)⌉ ∧
    (check (some e) now).2 = some e := by
  rw [check_some_eq] at hdenied ⊢
  by_cases h1 : RATE_LIMIT_COOLDOWN_SECONDS < now - e.last_attempt
  · rw [if_pos h1] at hdenied
    simp at hdenied
  · rw [if_neg h1] at hdenied ⊢
    by_cases h2 : RATE_LIMIT_DELAYS_SECONDS.getD
        (min e.count (RATE_LIMIT_DELAYS_SECONDS.length - 1)) 0 ≤ now - e.last_attempt
    · rw [if_pos h2] at hdenied
      simp at hdenied
    · rw [if_neg h2]
      exact ⟨rfl, rfl⟩

/-- Witness for `rate_check_denied` at `e = {count 1, last 0}`, `now = 0`. -/
theorem rate_check_denied_witness :
    ((check (some { count := 1, last_attempt := 0 }) 0).1.allowed = false) ∧
    ((check (some { count := 1, last_attempt := 0 }) 0).1.retry_after =
      ⌈RATE_LIMIT_DELAYS_SECONDS.getD
          (min ({ count := 1, last_attempt := 0 } : RateEntry).count
            (RATE_LIMIT_DELAYS_SECONDS.length - 1)) 0 -
        ((0 : ℚ) - ({ count := 1, last_attempt := 0 } : RateEntry).last_attempt)⌉ ∧
     (check (some { count := 1, last_attempt := 0 }) 0).2 =
       some { count := 1, last_attempt := 0 }) := by
  have hden : (check (some { count := 1, last_attempt := 0 }) 0).1.allowed = false := by
    rw [check_some_eq]
    norm_num [RATE_LIMIT_COOLDOWN_SECONDS, RATE_LIMIT_DELAYS_SECONDS]
  exact ⟨hden, rate_check_denied { count := 1, last_attempt := 0 } 0 hden⟩

/-- Claim C6: an attempt arriving strictly more than 1800 s after
`last_attempt` (or with no stored entry) is allowed with `retry_after = 0`
and the stored count resets to 1; in particular a `{count 5, last t0}` entry
checked at `t0 + 1801` is allowed and resets. -/
theorem rate_check_cooldown_reset (e : RateEntry) (now t0 : ℚ)
    (hcool : RATE_LIMIT_COOLDOWN_SECONDS < now - e.last_attempt) :
    check (some e) now =
      ({ allowed := true, retry_after := 0 }, some { count := 1, last_attempt := now }) ∧
    check none now =
      ({ allowed := true, retry_after := 0 }, some { count := 1, last_attempt := now }) ∧
    check (some { count := 5, last_attempt := t0 }) (t0 + 1801) =
      ({ allowed := true, retry_after := 0 }, some { count := 1, last_attempt := t0 + 1801 }) := by
  refine ⟨?_, rfl, ?_⟩
  · rw [check_some_eq, if_pos hcool]
  · rw [check_some_eq, if_pos]
    norm_num [RATE_LIMIT_COOLDOWN_SECONDS]

/-- Witness for `rate_check_cooldown_reset` at `e = {count 5, last 0}`,
`now = 1801`, `t0 = 0`. -/
theorem rate_check_cooldown_reset_witness :
    (RATE_LIMIT_COOLDOWN_SECONDS <
      (1801 : ℚ) - ({ count := 5, last_attempt := 0 } : RateEntry).last_attempt) ∧
    check (some { count := 5, last_attempt := 0 }) 1801 =
      ({ allowed := true, retry_after := 0 }, some { count := 1, last_attempt := 1801 }) := by
  refine ⟨by norm_num [RATE_LIMIT_COOLDOWN_SECONDS], ?_⟩
  exact (rate_check_cooldown_reset { count := 5, last_attempt := 0 } 1801 0
    (by norm_num [RATE_LIMIT_COOLDOWN_SECONDS])).1

/-- Counterexample to claim C9 as stated: on the create route (`POST /room`)
with a 5-character room hash, the router rejects with `invalid_room_hash`
only after consulting the rate-limiter entity, and when the rate limiter
denies, the response is `rate_limited`, not `invalid_room_hash`. -/
theorem hash_validation_counterexample :
    (routeCreateRoom { allowed := true, retry_after := 0 } (some "short")).response =
      some (400, "invalid_room_hash") ∧
    EntityLookup.rateLimiter ∈
      (routeCreateRoom { allowed := true, retry_after := 0 } (some "short")).lookups ∧
    (routeCreateRoom { allowed := false, retry_after := 10 } (some "short")).response =
      some (429, "rate_limited") := by
  refine ⟨rfl, ?_, rfl⟩
  have h5 : ("short" : String).length = 5 := rfl
  simp [routeCreateRoom, h5]

/-- Claim C9 amended: on the `/room/{hash}/...` routes, a room hash that is
not exactly 16 characters is rejected with `invalid_room_hash` (400) with no
entity lookup at all; on the create route (`POST /room`), the rate limiter is
always consulted first, so with an allowed rate check a malformed or missing
body hash is rejected with `invalid_room_hash` (400) after that single
rate-limiter lookup and without consulting the room entity, while a denied
rate check answers `rate_limited` (429) regardless of the hash. -/
theorem hash_validation_amended (roomHash : String) (rate : CheckResult)
    (body : Option String) (hlen : roomHash.length ≠ 16) :
    routeRoomSubpath roomHash =
      { response := some (400, "invalid_room_hash"), lookups := [] } ∧
    (rate.allowed = true → ∀ h, body = some h → h.length ≠ 16 →
      routeCreateRoom rate body =
        { response := some (400, "invalid_room_hash"), lookups := [.rateLimiter] }) ∧
    (rate.allowed = true →
      routeCreateRoom rate none =
        { response := some (400, "invalid_room_hash"), lookups := [.rateLimiter] }) ∧
    (rate.allowed = false →
      routeCreateRoom rate body =
        { response := some (429, "rate_limited"), lookups := [.rateLimiter] }) ∧
    EntityLookup.roomEntity ∉ (routeRoomSubpath roomHash).lookups ∧
    (∀ h, body = some h → h.length ≠ 16 →
      EntityLookup.roomEntity ∉ (routeCreateRoom rate body).lookups) := by
  refine ⟨?_, ?_, ?_, ?_, ?_, ?_⟩
  · simp [routeRoomSubpath, hlen]
  · intro hall h hb hl
    subst hb
    simp [routeCreateRoom, hall, hl]
  · intro hall
    simp [routeCreateRoom, hall]
  · intro hden
    simp [routeCreateRoom, hden]
  · simp [routeRoomSubpath, hlen]
  · intro h hb hl
    subst hb
    by_cases hall : rate.allowed = true
    · simp [routeCreateRoom, hall, hl]
    · simp at hall
      simp [routeCreateRoom, hall]

/-- Witness for `hash_validation_amended` at the 5-character hash `"short"`
with an allowed rate-check result. -/
theorem hash_validation_amended_witness :
    (("short" : String).length ≠ 16) ∧
    (routeRoomSubpath "short" =
      { response := some (400, "invalid_room_hash"), lookups := [] } ∧
    (({ allowed := true, retry_after := 0 } : CheckResult).allowed = true →
      ∀ h, (some "short" : Option String) = some h → h.length ≠ 16 →
      routeCreateRoom { allowed := true, retry_after := 0 } (some "short") =
        { response := some (400, "invalid_room_hash"), lookups := [.rateLimiter] }) ∧
    (({ allowed := true, retry_after := 0 } : CheckResult).allowed = true →
      routeCreateRoom { allowed := true, retry_after := 0 } none =
        { response := some (400, "invalid_room_hash"), lookups := [.rateLimiter] }) ∧
    (({ allowed := true, retry_after := 0 } : CheckResult).allowed = false →
      routeCreateRoom { allowed := true, retry_after := 0 } (some "short") =
        { response := some (429, "rate_limited"), lookups := [.rateLimiter] }) ∧
    EntityLookup.roomEntity ∉ (routeRoomSubpath "short").lookups ∧
    (∀ h, (some "short" : Option String) = some h → h.length ≠ 16 →
      EntityLookup.roomEntity ∉
        (routeCreateRoom { allowed := true, retry_after := 0 } (some "short")).lookups)) :=
  ⟨by decide,
   hash_validation_amended "short" { allowed := true, retry_after := 0 }
     (some "short") (by decide)⟩

end SOSChat
